import Mathlib

/-!
Shallow embedding of the db-interact service (child-care record service):
authorization helpers, relationship store operations, activity CRUD and
serialization, translated from `db_interact_service/models.py`,
`routes.py`, `decorators.py` and `utils.py`.

MongoDB documents are modelled as association lists over a small BSON-like
value type; collections are lists of records; ObjectId parsing is modelled
as a 24-hex-digit check with lowercase normalization (matching
`bson.ObjectId` string round-tripping); Python exceptions that the source
catches are modelled by the `Option`/`Except`-returning branches the
handlers reduce them to.
-/

namespace DbInteract

/-- BSON-like value: distinguishes internal ObjectId references (`oid`)
from plain strings, numbers, booleans, null, arrays and sub-documents,
which is exactly the distinction `serialize_doc` and the activity
validation in `models.py` branch on. -/
inductive JVal where
  | oid : String → JVal
  | str : String → JVal
  | num : Int → JVal
  | bool : Bool → JVal
  | null : JVal
  | arr : List JVal → JVal
  | obj : List (String × JVal) → JVal
deriving Repr, BEq

/-- Python truthiness of a BSON-like value (`if not x` / `if x.get(k)`). -/
def truthy : JVal → Bool
  | .oid _ => true
  | .str s => s ≠ ""
  | .num n => n ≠ 0
  | .bool b => b
  | .null => false
  | .arr l => ¬ l.isEmpty
  | .obj l => ¬ l.isEmpty

/-- Truthiness of an optional value: a missing key (`dict.get` returning
None) is falsy. -/
def truthyOpt : Option JVal → Bool
  | none => false
  | some v => truthy v

/-- Validity test for the 24-hex-character string form of an ObjectId,
as enforced by the `bson.ObjectId` constructor. -/
def isValidOidString (s : String) : Bool :=
  s.toList.length = 24 && s.toList.all (fun c => c.isDigit || ('a' ≤ c && c ≤ 'f') || ('A' ≤ c && c ≤ 'F'))

/-- Lowercasing of a hexadecimal digit; on the characters admitted by
`isValidOidString` this agrees with full Unicode lowercasing. -/
def lowerHexChar (c : Char) : Char :=
  if c = 'A' then 'a' else if c = 'B' then 'b' else if c = 'C' then 'c'
  else if c = 'D' then 'd' else if c = 'E' then 'e' else if c = 'F' then 'f' else c

/-- Model of `ObjectId(s)` on a string: fails (raises, modelled as `none`)
unless `s` is 24 hex characters; the canonical round-trip form
`str(ObjectId(s))` is the lowercase of `s`. -/
def parseOid (s : String) : Option String :=
  if isValidOidString s then some ⟨s.toList.map lowerHexChar⟩ else none

/-- Child record in the `children` collection, with the fields the
authorization and relationship operations consult. `id` and the entries
of `parent_ids` / `supervisor_ids` are canonical ObjectId strings. -/
structure Child where
  id : String
  name : String
  parent_ids : List String
  supervisor_ids : List String
deriving Repr, DecidableEq

/-- Activity record in the `activities` collection, with the fields the
query, ordering and deletion operations consult. -/
structure Activity where
  id : String
  child_id : String
  type : String
  created_at : Int
deriving Repr, DecidableEq

/-- State of the operational MongoDB database: the two collections the
service touches. -/
structure DB where
  children : List Child
  activities : List Activity
deriving Repr, DecidableEq

/-- Model of `is_parent_of` (models.py): converts both ids to ObjectId
(any conversion failure is caught and yields `false`) and checks
`count_documents({_id: child, parent_ids: user}) > 0`. -/
def is_parent_of (db : DB) (user_id child_id : String) : Bool :=
  match parseOid child_id, parseOid user_id with
  | some cid, some uid => db.children.any (fun c => c.id = cid && c.parent_ids.contains uid)
  | _, _ => false

/-- Model of `is_supervisor_of` (models.py): same shape as `is_parent_of`
against the `supervisor_ids` array. -/
def is_supervisor_of (db : DB) (user_id child_id : String) : Bool :=
  match parseOid child_id, parseOid user_id with
  | some cid, some uid => db.children.any (fun c => c.id = cid && c.supervisor_ids.contains uid)
  | _, _ => false

/-- Model of `check_child_access` (routes.py): the current user id and
role come from the request context `g` (absent attributes default to
`None`, modelled by `Option`); a falsy user id or child id denies, then
role `teacher` is checked against `supervisor_ids` and role `parent`
against `parent_ids`; every other combination denies. -/
def check_child_access (db : DB) (user_id user_role : Option String) (child_id : String) : Bool :=
  match user_id with
  | none => false
  | some uid =>
    if uid = "" || child_id = "" then false
    else if user_role = some "teacher" && is_supervisor_of db uid child_id then true
    else if user_role = some "parent" && is_parent_of db uid child_id then true
    else false

/-- Model of `get_activity_by_id` (models.py): ObjectId conversion failure
is caught and yields `None`; otherwise `find_one` returns the first
matching document (serialized, which in this structured model is the
record itself since ids are already in string form). -/
def get_activity_by_id (db : DB) (activity_id : String) : Option Activity :=
  match parseOid activity_id with
  | none => none
  | some aid => db.activities.find? (fun a => a.id = aid)

/-- Model of `delete_activity_record` (models.py): returns whether a
document was deleted together with the resulting database;
`delete_one` removes the first matching document; an invalid id format
is caught and treated as not-found. -/
def delete_activity_record (db : DB) (activity_id : String) : Bool × DB :=
  match parseOid activity_id with
  | none => (false, db)
  | some aid =>
    if db.activities.any (fun a => a.id = aid) then
      (true, { db with activities := db.activities.eraseP (fun a => a.id == aid) })
    else
      (false, db)

/-- Model of `handle_delete_activity` (routes.py): HTTP status code of the
response paired with the resulting database. Role must be `teacher`; the
activity is looked up to find its owning child; the caller must
supervise that child; only then is the record deleted. -/
def handle_delete_activity (db : DB) (user_id user_role activity_id : String) : Nat × DB :=
  if user_role ≠ "teacher" then (403, db)
  else
    match get_activity_by_id db activity_id with
    | none => (404, db)
    | some act =>
      if act.child_id = "" then (500, db)
      else if ¬ is_supervisor_of db user_id act.child_id then (403, db)
      else
        let r := delete_activity_record db activity_id
        if r.1 then (200, r.2) else (404, r.2)

/-- Decoded JWT payload as seen by `token_required` (decorators.py): the
claims it reads via `payload.get`, each possibly absent. -/
structure Payload where
  type : Option String
  sub : Option String
  role : Option String
deriving Repr, DecidableEq

/-- Model of the payload-validation step of `token_required`
(decorators.py, after signature verification): rejects with 401 unless
the `type` claim equals `access`; loads `sub` and `role` into the
request context and rejects with 401 if either is `None` (the check is
`is None`, not falsiness). Returns the accepted (identity, role) pair. -/
def validate_payload (p : Payload) : Option (String × String) :=
  if p.type ≠ some "access" then none
  else
    match p.sub, p.role with
    | some s, some r => some (s, r)
    | _, _ => none

/-- Behaviour of the backing store during a children query, used to model
the exception paths of `get_children_for_parent` /
`get_children_for_supervisor`: `failConnect` makes `get_db()` raise
(before the try block), `failQuery` makes cursor iteration raise inside
the try block. -/
inductive StoreBehavior where
  | ok
  | failConnect
  | failQuery
deriving Repr, DecidableEq

/-- Model of `get_children_for_parent` (models.py): `get_db()` is called
before the try block, so a connection failure propagates as a raised
fault (`Except.error`); every exception inside the try block — invalid
ObjectId or a store fault during the find/iteration — is caught, logged,
and turned into a normal empty list. Results are `{_id, name}`
projections. -/
def get_children_for_parent (db : DB) (sb : StoreBehavior) (parent_id : String) : Except String (List (String × String)) :=
  match sb with
  | .failConnect => .error "ConnectionFailure"
  | .failQuery => .ok []
  | .ok =>
    match parseOid parent_id with
    | none => .ok []
    | some pid => .ok ((db.children.filter (fun c => c.parent_ids.contains pid)).map (fun c => (c.id, c.name)))

/-- Model of `get_children_for_supervisor` (models.py): same shape as
`get_children_for_parent` against the `supervisor_ids` array. -/
def get_children_for_supervisor (db : DB) (sb : StoreBehavior) (supervisor_id : String) : Except String (List (String × String)) :=
  match sb with
  | .failConnect => .error "ConnectionFailure"
  | .failQuery => .ok []
  | .ok =>
    match parseOid supervisor_id with
    | none => .ok []
    | some sid => .ok ((db.children.filter (fun c => c.supervisor_ids.contains sid)).map (fun c => (c.id, c.name)))

/-- Semantics of the MongoDB `$addToSet` primitive on an array value:
append the element only when absent. -/
def addToSet (l : List String) (x : String) : List String :=
  if x ∈ l then l else l ++ [x]

/-- Helper for `update_one`: apply `f` to the first record matching the
given child ObjectId, leaving the rest of the collection unchanged. -/
def updateFirstChild (f : Child → Child) (cid : String) : List Child → List Child
  | [] => []
  | c :: rest => if c.id = cid then f c :: rest else c :: updateFirstChild f cid rest

/-- Effect of the `$addToSet` update document of
`link_supervisor_to_child` on one child record. -/
def linkSup (sid : String) (c : Child) : Child :=
  { c with supervisor_ids := addToSet c.supervisor_ids sid }

/-- Model of `link_supervisor_to_child` (models.py): both ids are
converted to ObjectId (failure caught, returning `false` and leaving the
store untouched); `update_one` with `$addToSet` adds the supervisor to
the first matching child; the returned boolean is `matched_count > 0`,
i.e. whether the child was found, regardless of whether the set was
modified. -/
def link_supervisor_to_child (db : DB) (child_id supervisor_id : String) : Bool × DB :=
  match parseOid child_id, parseOid supervisor_id with
  | some cid, some sid =>
    (db.children.any (fun c => c.id = cid),
     { db with children := updateFirstChild (linkSup sid) cid db.children })
  | _, _ => (false, db)

/-- Leap-year test of the proleptic Gregorian calendar used by
`datetime.date`. -/
def isLeap (y : Nat) : Bool :=
  (y % 4 = 0 && y % 100 ≠ 0) || y % 400 = 0

/-- Length of month `m` of year `y`. -/
def daysInMonth (y m : Nat) : Nat :=
  if m = 2 then (if isLeap y then 29 else 28)
  else if m = 4 || m = 6 || m = 9 || m = 11 then 30
  else 31

/-- Number of days in the months of year `y` strictly before month `m`. -/
def daysBeforeMonth (y m : Nat) : Nat :=
  (List.range m).foldl (fun acc i => if 1 ≤ i then acc + daysInMonth y i else acc) 0

/-- Day number of the calendar date (y, m, d): days elapsed since the
epoch of the proleptic Gregorian calendar. -/
def dayNumber (y m d : Nat) : Nat :=
  365 * (y - 1) + ((y - 1) / 4 + (y - 1) / 400 - (y - 1) / 100) + daysBeforeMonth y m + (d - 1)

/-- Splitting of a character list on a separator, mirroring
`str.split`-style grouping (a trailing separator yields a final empty
group). -/
def splitOnChar (sep : Char) : List Char → List (List Char)
  | [] => [[]]
  | c :: rest =>
    let r := splitOnChar sep rest
    if c = sep then [] :: r
    else
      match r with
      | g :: gs => (c :: g) :: gs
      | [] => [[c]]

/-- Value of a nonempty all-digit group, `none` otherwise. -/
def digitsToNat : List Char → Option Nat
  | l =>
    if !l.isEmpty && l.all Char.isDigit then
      some (l.foldl (fun a c => 10 * a + (c.toNat - 48)) 0)
    else none

/-- Model of `datetime.strptime(s, "%Y-%m-%d")`: three dash-separated
digit groups (year up to 4 digits, month and day up to 2), forming a
valid calendar date; anything else raises ValueError (`none`). -/
def parseYMD (s : String) : Option (Nat × Nat × Nat) :=
  match splitOnChar '-' s.toList with
  | [ys, ms, ds] =>
    match digitsToNat ys, digitsToNat ms, digitsToNat ds with
    | some y, some m, some d =>
      if ys.length ≤ 4 && ms.length ≤ 2 && ds.length ≤ 2
          && 1 ≤ y && 1 ≤ m && m ≤ 12 && 1 ≤ d && d ≤ daysInMonth y m then
        some (y, m, d)
      else none
    | _, _, _ => none
  | _ => none

/-- Timestamps are modelled as seconds; a parsed date denotes midnight
(00:00) of that day. One day is 86400 seconds, so
`datetime + timedelta(days=1)` is `+ 86400`. -/
def parseDateSecs (s : String) : Option Int :=
  (parseYMD s).map (fun ymd => (dayNumber ymd.1 ymd.2.1 ymd.2.2 : Int) * 86400)

/-- Model of the date-parsing step of `handle_get_activities_data`
(routes.py): absent or empty query parameters leave the corresponding
bound unset (`if start_date_str:` — empty string is falsy); a present
`start_date` parses to midnight of that day, a present `end_date` parses
to midnight of that day plus one day (making the supplied end date
inclusive); a ValueError from either parse yields a 400 response,
modelled as `none`. -/
def parse_date_params (start_date_str end_date_str : Option String) : Option (Option Int × Option Int) :=
  let pStart := match start_date_str with
    | none => some none
    | some s => if s = "" then some none else (parseDateSecs s).map some
  let pEnd := match end_date_str with
    | none => some none
    | some s => if s = "" then some none else (parseDateSecs s).map (fun e => some (e + 86400))
  match pStart, pEnd with
  | some sd, some ed => some (sd, ed)
  | _, _ => none

/-- Filter predicate built by `get_activities_for_child` (models.py):
exact `child_id` match; type filter only when `activity_type` is truthy;
`$gte` lower bound and `$lt` (exclusive) upper bound on `created_at`
when supplied. -/
def matchesFilters (cid : String) (activity_type : Option String) (sd ed : Option Int) (a : Activity) : Bool :=
  a.child_id = cid
  && (match activity_type with
      | some t => if t = "" then true else a.type = t
      | none => true)
  && (match sd with | some s => s ≤ a.created_at | none => true)
  && (match ed with | some e => a.created_at < e | none => true)

/-- Insertion step of a sort by `created_at` descending. -/
def insertDesc (a : Activity) : List Activity → List Activity
  | [] => [a]
  | b :: rest => if b.created_at ≤ a.created_at then a :: b :: rest else b :: insertDesc a rest

/-- Model of `cursor.sort("created_at", -1)`: the matching documents
ordered by `created_at` descending (most recent first). -/
def sortDesc (l : List Activity) : List Activity :=
  l.foldr insertDesc []

/-- Model of `get_activities_for_child` (models.py): an invalid child id
raises, re-raised as a ValueError (`Except.error`); otherwise the
filtered activities are returned sorted by `created_at` descending, the
empty list when nothing matches. -/
def get_activities_for_child (db : DB) (child_id : String) (activity_type : Option String) (start_date end_date : Option Int) : Except String (List Activity) :=
  match parseOid child_id with
  | none => .error "Invalid parameters for getting activities"
  | some cid => .ok (sortDesc (db.activities.filter (matchesFilters cid activity_type start_date end_date)))

/-- Lookup of a key in a document (association list), first occurrence,
as `dict.get`. -/
def getKey (d : List (String × JVal)) (k : String) : Option JVal :=
  (d.find? (fun kv => kv.1 = k)).map (fun kv => kv.2)

/-- Setting a key in a document: replace the value at the first
occurrence of the key, or append the binding when the key is absent. -/
def setAssoc : List (String × JVal) → String → JVal → List (String × JVal)
  | [], k, v => [(k, v)]
  | kv₀ :: rest, k, v => if kv₀.1 = k then (k, v) :: rest else kv₀ :: setAssoc rest k v

/-- Model of the `ObjectId(x)` constructor on a document value: a string
is parsed as a 24-hex id, an existing ObjectId passes through, and every
other type raises (`none`). -/
def jvalToOid : JVal → Option String
  | .str s => parseOid s
  | .oid s => some s
  | _ => none

/-- Test `activity_data['type'] == 'drawing'` of `add_activity_record`:
only a string value equal to `drawing` triggers the extra check. -/
def isDrawingType (activity_data : List (String × JVal)) : Bool :=
  match getKey activity_data "type" with
  | some (.str t) => t = "drawing"
  | _ => false

/-- Document finally inserted by `add_activity_record`: `created_at` is
stamped with the current time only when the key is absent from the
input, and `child_id` / `logged_by` are replaced by their ObjectId
forms. -/
def preparedActivityDoc (activity_data : List (String × JVal)) (now : JVal) (cid lid : String) : List (String × JVal) :=
  setAssoc (setAssoc
    (if activity_data.any (fun kv => kv.1 = "created_at") then activity_data
     else activity_data ++ [("created_at", now)]) "child_id" (.oid cid)) "logged_by" (.oid lid)

/-- Final stage of `add_activity_record` once the details dictionary is
in hand: the type-specific drawing check, then the insertion. -/
def drawingStage (docs : List (List (String × JVal))) (activity_data : List (String × JVal)) (now : JVal) (new_id : String) (cid lid : String) (details : List (String × JVal)) : Except String (String × List (List (String × JVal))) :=
  if isDrawingType activity_data && !truthyOpt (getKey details "image_url") then
    .error "Missing image_url in details for drawing activity"
  else
    .ok (new_id, docs ++ [preparedActivityDoc activity_data now cid lid])

/-- Model of `add_activity_record` (models.py) over the raw `activities`
document collection: required fields `child_id`, `type`, `details`,
`logged_by` must be present and truthy; `child_id` and `logged_by` must
convert to ObjectId; `details` must be a dictionary; a `drawing`
activity additionally needs a truthy `image_url` inside `details`;
`created_at` is set to `now` only when the key is absent; the ids are
replaced by their ObjectId forms and the document is inserted. Any
validation failure raises ValueError before the insert, so the
collection is extended only on success. -/
def add_activity_record (docs : List (List (String × JVal))) (activity_data : List (String × JVal)) (now : JVal) (new_id : String) : Except String (String × List (List (String × JVal))) :=
  if !((["child_id", "type", "details", "logged_by"].filter
      (fun f => !truthyOpt (getKey activity_data f))).isEmpty) then
    .error "Missing required fields for activity"
  else
    match (getKey activity_data "child_id").bind jvalToOid with
    | none => .error "Invalid child_id for activity"
    | some cid =>
      match (getKey activity_data "logged_by").bind jvalToOid with
      | none => .error "Invalid logged_by for activity"
      | some lid =>
        match getKey activity_data "details" with
        | some (.obj details) => drawingStage docs activity_data now new_id cid lid details
        | _ => .error "Activity details must be an object"

/-- Child document for the update operation: the stored `_id` plus the
remaining document fields as an association list, so that the partial
`$set` merge and its frame can be stated per key. -/
structure MDoc where
  id : String
  fields : List (String × JVal)

/-- Allow-list of updatable child fields (models.py,
`update_child_details`). -/
def allowed_updates : List String := ["group", "allergies", "notes", "name", "birthday"]

/-- Semantics of a `$set` payload on one document: set each binding in
order. -/
def applySet (d : MDoc) (payload : List (String × JVal)) : MDoc :=
  payload.foldl (fun d kv => { d with fields := setAssoc d.fields kv.1 kv.2 }) d

/-- Helper for `update_one` on the modelled `children` documents: apply
`f` to the first document whose `_id` matches. -/
def updateFirstDoc (f : MDoc → MDoc) (cid : String) : List MDoc → List MDoc
  | [] => []
  | d :: rest => if d.id = cid then f d :: rest else d :: updateFirstDoc f cid rest

/-- Model of `update_child_details` (models.py): the `$set` payload is
built from the allowed keys only; when no allowed key is present the
function returns `false` before any store access; an invalid child id is
caught and yields `false`; otherwise `update_one` applies the partial
merge to the first matching document and the result is
`matched_count > 0`. -/
def update_child_details (children : List MDoc) (child_id : String) (update_data : List (String × JVal)) : Bool × List MDoc :=
  if (update_data.filter (fun kv => allowed_updates.contains kv.1)).isEmpty then (false, children)
  else
    match parseOid child_id with
    | none => (false, children)
    | some cid =>
      (children.any (fun d => d.id = cid),
       updateFirstDoc (fun d => applySet d (update_data.filter (fun kv => allowed_updates.contains kv.1))) cid children)

/-- Conversion applied by `serialize_doc` to the `_id`, `child_id` and
`logged_by` fields: an ObjectId becomes its string form, anything else
is left alone. -/
def oidToStr : JVal → JVal
  | .oid s => .str s
  | v => v

/-- List comprehension of `serialize_doc` for `parent_ids` and
`supervisor_ids`: keep only ObjectId entries, converted to strings. -/
def serializeIdList : List JVal → List JVal
  | [] => []
  | .oid s :: rest => .str s :: serializeIdList rest
  | .str _ :: rest | .num _ :: rest | .bool _ :: rest | .null :: rest
  | .arr _ :: rest | .obj _ :: rest => serializeIdList rest

/-- Conversion applied by `serialize_doc` to the `parent_ids` and
`supervisor_ids` fields: a list value is rebuilt from its ObjectId
entries only; a non-list value is left alone. -/
def filterIdsVal : JVal → JVal
  | .arr l => .arr (serializeIdList l)
  | v => v

/-- Pointwise update of a document at one key: apply `f` to the value of
every binding of key `k` (a Python dict holds each key once). -/
def mapKey (doc : List (String × JVal)) (k : String) (f : JVal → JVal) : List (String × JVal) :=
  doc.map (fun kv => if kv.1 = k then (kv.1, f kv.2) else kv)

/-- Model of `serialize_doc` (utils.py): a falsy document is returned
unchanged; otherwise `_id`, `child_id` and `logged_by` are converted
from ObjectId to string when they hold an ObjectId, and the
`parent_ids` / `supervisor_ids` lists are rebuilt keeping only their
ObjectId entries (as strings). No other key is touched. -/
def serialize_doc (doc : List (String × JVal)) : List (String × JVal) :=
  if doc.isEmpty then doc
  else
    mapKey (mapKey (mapKey (mapKey (mapKey doc "_id" oidToStr)
      "parent_ids" filterIdsVal) "supervisor_ids" filterIdsVal)
      "child_id" oidToStr) "logged_by" oidToStr

/-- Sample child id (24 hex characters) for concrete evaluations. -/
def childOid : String := "aaaaaaaaaaaaaaaaaaaaaaaa"

/-- Sample parent identity. -/
def parentOid : String := "bbbbbbbbbbbbbbbbbbbbbbbb"

/-- Sample supervisor identity. -/
def teacherOid : String := "cccccccccccccccccccccccc"

/-- Sample identity linked to no child. -/
def strangerOid : String := "ffffffffffffffffffffffff"

/-- Sample activity id. -/
def actOid : String := "dddddddddddddddddddddddd"

/-- Sample child record: one parent, one supervisor. -/
def sampleChild : Child :=
  { id := childOid, name := "Ana", parent_ids := [parentOid], supervisor_ids := [teacherOid] }

/-- Sample activity owned by the sample child. -/
def sampleActivity : Activity :=
  { id := actOid, child_id := childOid, type := "meal", created_at := 100 }

/-- Sample database: one child, one activity. -/
def sampleDB : DB :=
  { children := [sampleChild], activities := [sampleActivity] }

/-- Statement-level predicate: identity `u` is a member of the
`parent_ids` set of the stored child referred to by `cid` (both given in
string form, resolved to ObjectId references). -/
def parentLinked (db : DB) (u cid : String) : Prop :=
  ∃ uo co, parseOid u = some uo ∧ parseOid cid = some co ∧
    ∃ c ∈ db.children, c.id = co ∧ uo ∈ c.parent_ids

/-- Statement-level predicate: identity `u` is a member of the
`supervisor_ids` set of the stored child referred to by `cid`. -/
def supervisorLinked (db : DB) (u cid : String) : Prop :=
  ∃ uo co, parseOid u = some uo ∧ parseOid cid = some co ∧
    ∃ c ∈ db.children, c.id = co ∧ uo ∈ c.supervisor_ids

theorem is_parent_of_iff (db : DB) (u cid : String) :
    is_parent_of db u cid = true ↔ parentLinked db u cid := by
  unfold is_parent_of parentLinked
  cases hc : parseOid cid <;> cases hu : parseOid u <;>
    simp [List.any_eq_true]

theorem is_supervisor_of_iff (db : DB) (u cid : String) :
    is_supervisor_of db u cid = true ↔ supervisorLinked db u cid := by
  unfold is_supervisor_of supervisorLinked
  cases hc : parseOid cid <;> cases hu : parseOid u <;>
    simp [List.any_eq_true]

theorem parseOid_empty : parseOid "" = none := by decide

/-- C1: the child-access decision allows exactly the two legitimate
(role, membership) combinations and denies everything else — other
roles, identities absent from the role-appropriate set, nonexistent
children and malformed ids all yield `false`; the function is total, so
no error can escape it. -/
theorem check_child_access_spec (db : DB) (uid role : Option String) (cid : String) :
    check_child_access db uid role cid = true ↔
      ((role = some "parent" ∧ ∃ u, uid = some u ∧ parentLinked db u cid)
     ∨ (role = some "teacher" ∧ ∃ u, uid = some u ∧ supervisorLinked db u cid)) := by
  cases uid with
  | none => simp [check_child_access]
  | some u =>
    by_cases h1 : u = ""
    · subst h1
      simp [check_child_access, parentLinked, supervisorLinked, parseOid_empty]
    · by_cases h2 : cid = ""
      · subst h2
        simp [check_child_access, parentLinked, supervisorLinked, parseOid_empty, h1]
      · rcases role with _ | r
        · simp [check_child_access, h1, h2]
        · by_cases hr : r = "teacher"
          · subst hr
            cases hs : is_supervisor_of db u cid with
            | true =>
              simp [check_child_access, h1, h2, hs, (is_supervisor_of_iff db u cid).mp hs]
            | false =>
              have hns : ¬ supervisorLinked db u cid := by
                intro hcon
                rw [← is_supervisor_of_iff] at hcon
                simp [hs] at hcon
              simp [check_child_access, h1, h2, hs, hns]
          · by_cases hp : r = "parent"
            · subst hp
              cases hpp : is_parent_of db u cid with
              | true =>
                simp [check_child_access, h1, h2, hpp, (is_parent_of_iff db u cid).mp hpp]
              | false =>
                have hnp : ¬ parentLinked db u cid := by
                  intro hcon
                  rw [← is_parent_of_iff] at hcon
                  simp [hpp] at hcon
                simp [check_child_access, h1, h2, hpp, hnp]
            · simp [check_child_access, h1, h2, hr, hp]

theorem delete_activity_record_not_deleted (db : DB) (aid : String)
    (h : (delete_activity_record db aid).1 = false) :
    (delete_activity_record db aid).2 = db := by
  unfold delete_activity_record at *
  cases hp : parseOid aid with
  | none => simp
  | some a =>
    simp only [hp] at h ⊢
    cases ha : db.activities.any (fun x => x.id = a) <;> simp [ha] at h ⊢

/-- C2: an activity deletion request succeeds (HTTP 200, and only then is
the store changed) only when the caller has role `teacher` and is a
member of the `supervisor_ids` of the child referenced by the
`child_id` of the activity; a teacher who does not supervise that
particular child receives 403; and on every non-200 outcome the
activities collection is left exactly as it was. -/
theorem handle_delete_activity_spec (db : DB) (uid role aid : String) :
    ((handle_delete_activity db uid role aid).1 = 200 →
      role = "teacher" ∧ ∃ act, get_activity_by_id db aid = some act ∧
        supervisorLinked db uid act.child_id)
  ∧ (∀ act, role = "teacher" → get_activity_by_id db aid = some act → act.child_id ≠ "" →
      ¬ supervisorLinked db uid act.child_id →
      handle_delete_activity db uid role aid = (403, db))
  ∧ ((handle_delete_activity db uid role aid).1 ≠ 200 →
      (handle_delete_activity db uid role aid).2 = db) := by
  refine ⟨?_, ?_, ?_⟩
  · intro h200
    by_cases hrole : role = "teacher"
    · cases hget : get_activity_by_id db aid with
      | none => simp [handle_delete_activity, hrole, hget] at h200
      | some act =>
        by_cases hcid : act.child_id = ""
        · simp [handle_delete_activity, hrole, hget, hcid] at h200
        · cases hsup : is_supervisor_of db uid act.child_id with
          | false => simp [handle_delete_activity, hrole, hget, hcid, hsup] at h200
          | true =>
            exact ⟨hrole, act, rfl, (is_supervisor_of_iff db uid act.child_id).mp hsup⟩
    · simp [handle_delete_activity, hrole] at h200
  · intro act hrole hget hcid hns
    have hsup : is_supervisor_of db uid act.child_id = false := by
      cases h : is_supervisor_of db uid act.child_id with
      | false => rfl
      | true => exact absurd ((is_supervisor_of_iff db uid act.child_id).mp h) hns
    simp [handle_delete_activity, hrole, hget, hcid, hsup]
  · intro hne
    by_cases hrole : role = "teacher"
    · cases hget : get_activity_by_id db aid with
      | none => simp [handle_delete_activity, hrole, hget]
      | some act =>
        by_cases hcid : act.child_id = ""
        · simp [handle_delete_activity, hrole, hget, hcid]
        · cases hsup : is_supervisor_of db uid act.child_id with
          | false => simp [handle_delete_activity, hrole, hget, hcid, hsup]
          | true =>
            cases hdel : (delete_activity_record db aid).1 with
            | false =>
              simp [handle_delete_activity, hrole, hget, hcid, hsup, hdel,
                delete_activity_record_not_deleted db aid hdel]
            | true =>
              exact absurd (by
                simp [handle_delete_activity, hrole, hget, hcid, hsup, hdel]) hne
    · simp [handle_delete_activity, hrole]

/-- C3 counterexample: a decoded payload with type `access` and
empty-string `sub` and `role` claims is accepted by the credential
validator (the code tests the claims against `None`, not against
emptiness), contradicting the claim that an empty-string subject or
role is rejected with Unauthorized. -/
theorem validate_payload_accepts_empty_claims :
    validate_payload { type := some "access", sub := some "", role := some "" } = some ("", "") := by
  decide

/-- C3 (amended): the credential validator rejects with Unauthorized
exactly when the `type` claim differs from `access` or the `sub` or
`role` claim is absent; presence, not non-emptiness, is what is checked,
so empty-string subject and role values are accepted. -/
theorem validate_payload_spec (p : Payload) :
    validate_payload p = none ↔
      (p.type ≠ some "access" ∨ p.sub = none ∨ p.role = none) := by
  unfold validate_payload
  by_cases ht : p.type = some "access" <;>
    cases hs : p.sub <;> cases hr : p.role <;> simp [ht, hs, hr]

/-- C4 counterexample: when the backing store fails during the find
(cursor iteration) of list-children-for-parent, the operation returns a
normal empty-list success — the very same value an unlinked parent would
get — instead of surfacing a store fault; the second conjunct shows the
same database does list a child when the store works. -/
theorem get_children_swallows_store_fault :
    get_children_for_parent sampleDB .failQuery parentOid = .ok []
    ∧ get_children_for_parent sampleDB .ok parentOid = .ok [(childOid, "Ana")] := by
  exact ⟨rfl, by rfl⟩

/-- C4 (amended): in both list-children operations a backing-store
failure during the query is caught and converted into a normal empty
result (logged only), indistinguishable from having no children; only a
connection-establishment failure, raised by `get_db()` before the try
block, propagates to the caller as a fault. -/
theorem get_children_fault_policy (db : DB) (pid : String) :
    get_children_for_parent db .failQuery pid = .ok []
  ∧ get_children_for_supervisor db .failQuery pid = .ok []
  ∧ get_children_for_parent db .failConnect pid = .error "ConnectionFailure"
  ∧ get_children_for_supervisor db .failConnect pid = .error "ConnectionFailure" := by
  exact ⟨rfl, rfl, rfl, rfl⟩

theorem insertDesc_perm (a : Activity) (l : List Activity) :
    (insertDesc a l).Perm (a :: l) := by
  induction l with
  | nil => exact List.Perm.refl _
  | cons b rest ih =>
    by_cases h : b.created_at ≤ a.created_at
    · simp [insertDesc, h]
    · simp only [insertDesc, if_neg h]
      exact (ih.cons b).trans (List.Perm.swap a b rest)

theorem sortDesc_perm (l : List Activity) : (sortDesc l).Perm l := by
  induction l with
  | nil => exact List.Perm.refl _
  | cons a rest ih =>
    exact (insertDesc_perm a (sortDesc rest)).trans (ih.cons a)

theorem mem_insertDesc (x a : Activity) (l : List Activity) :
    x ∈ insertDesc a l ↔ x = a ∨ x ∈ l := by
  rw [(insertDesc_perm a l).mem_iff]
  exact List.mem_cons

theorem insertDesc_pairwise (a : Activity) (l : List Activity)
    (h : l.Pairwise (fun x y => y.created_at ≤ x.created_at)) :
    (insertDesc a l).Pairwise (fun x y => y.created_at ≤ x.created_at) := by
  induction l with
  | nil => simp [insertDesc]
  | cons b rest ih =>
    rcases List.pairwise_cons.mp h with ⟨hb, hrest⟩
    by_cases hba : b.created_at ≤ a.created_at
    · simp only [insertDesc, if_pos hba]
      refine List.pairwise_cons.mpr ⟨?_, h⟩
      intro y hy
      rcases List.mem_cons.mp hy with h1 | h2
      · subst h1; exact hba
      · exact le_trans (hb y h2) hba
    · simp only [insertDesc, if_neg hba]
      refine List.pairwise_cons.mpr ⟨?_, ih hrest⟩
      intro y hy
      rcases (mem_insertDesc y a rest).mp hy with h1 | h2
      · subst h1; exact le_of_lt (not_le.mp hba)
      · exact hb y h2

theorem sortDesc_pairwise (l : List Activity) :
    (sortDesc l).Pairwise (fun x y => y.created_at ≤ x.created_at) := by
  induction l with
  | nil => simp [sortDesc]
  | cons a rest ih => exact insertDesc_pairwise a (sortDesc rest) ih

theorem sortDesc_pairwise_strict (l : List Activity)
    (hne : l.Pairwise (fun x y => x.created_at ≠ y.created_at)) :
    (sortDesc l).Pairwise (fun x y => y.created_at < x.created_at) := by
  have hge := sortDesc_pairwise l
  have hne' : (sortDesc l).Pairwise (fun x y => x.created_at ≠ y.created_at) :=
    ((sortDesc_perm l).pairwise_iff (fun hab => Ne.symm hab)).mpr hne
  exact (hge.and hne').imp (fun hxy => lt_of_le_of_ne hxy.1 (Ne.symm hxy.2))

/-- C9: for any child id that resolves, listing activities succeeds with
a permutation of exactly the stored activities matching the filters;
whenever the matching activities have pairwise distinct `created_at`
timestamps the returned sequence is strictly descending in `created_at`
(most recent first); and when nothing matches, the result is the empty
sequence, not an error. -/
theorem get_activities_for_child_spec (db : DB) (cid oid : String)
    (activity_type : Option String) (sd ed : Option Int)
    (hc : parseOid cid = some oid) :
    ∃ l, get_activities_for_child db cid activity_type sd ed = .ok l
      ∧ l.Perm (db.activities.filter (matchesFilters oid activity_type sd ed))
      ∧ ((db.activities.filter (matchesFilters oid activity_type sd ed)).Pairwise
            (fun x y => x.created_at ≠ y.created_at) →
          l.Pairwise (fun x y => y.created_at < x.created_at))
      ∧ (db.activities.filter (matchesFilters oid activity_type sd ed) = [] → l = []) := by
  refine ⟨sortDesc (db.activities.filter (matchesFilters oid activity_type sd ed)), ?_, ?_, ?_, ?_⟩
  · simp [get_activities_for_child, hc]
  · exact sortDesc_perm _
  · exact fun h => sortDesc_pairwise_strict _ h
  · intro h; rw [h]; rfl

/-- C7 counterexample: the empty string — a date string that
`strptime(s, "%Y-%m-%d")` would reject — supplied as either date
parameter is silently ignored (treated as no filter, `some (none, none)`)
rather than causing a validation failure (`none`), because the route
guards the parse with a truthiness test on the raw parameter. -/
theorem empty_date_param_silently_ignored :
    parse_date_params (some "") (some "") = some (none, none)
    ∧ parseYMD "" = none := by
  exact ⟨rfl, rfl⟩

/-- C7 (amended): a supplied `start_date` is an inclusive lower bound at
midnight of that day and the computed upper bound is midnight of
`end_date` plus one day, exclusive — an activity timestamped exactly at
the start bound is included and one timestamped exactly at the computed
upper bound is excluded, so every moment of the supplied end date is
included; a malformed NON-EMPTY date string causes a validation failure,
while an empty date parameter is treated as absent (silently ignored,
per the counterexample). -/
theorem date_filter_spec (db : DB) (s e cid oid : String) (S E : Int) (a : Activity)
    (hs : parseDateSecs s = some S) (he : parseDateSecs e = some E)
    (hc : parseOid cid = some oid) :
    parse_date_params (some s) (some e) = some (some S, some (E + 86400))
  ∧ (∃ l, get_activities_for_child db cid none (some S) (some (E + 86400)) = .ok l
      ∧ (∀ x, x ∈ l ↔ x ∈ db.activities ∧ x.child_id = oid
            ∧ S ≤ x.created_at ∧ x.created_at < E + 86400)
      ∧ (a ∈ db.activities → a.child_id = oid → a.created_at = S → S < E + 86400 → a ∈ l)
      ∧ (a.created_at = E + 86400 → a ∉ l))
  ∧ (∀ bad, bad ≠ "" → parseDateSecs bad = none →
      parse_date_params (some bad) (some e) = none
      ∧ parse_date_params (some s) (some bad) = none) := by
  have h0 : parseDateSecs "" = none := by decide
  have hsne : s ≠ "" := by
    intro h; rw [h, h0] at hs; cases hs
  have hene : e ≠ "" := by
    intro h; rw [h, h0] at he; cases he
  refine ⟨?_, ?_, ?_⟩
  · simp [parse_date_params, hsne, hene, hs, he]
  · refine ⟨sortDesc (db.activities.filter (matchesFilters oid none (some S) (some (E + 86400)))), ?_, ?_, ?_, ?_⟩
    · simp [get_activities_for_child, hc]
    · intro x
      rw [(sortDesc_perm _).mem_iff, List.mem_filter]
      simp [matchesFilters, and_assoc]
    · intro hmem hcid hcr hlt
      rw [(sortDesc_perm _).mem_iff, List.mem_filter]
      refine ⟨hmem, ?_⟩
      simp [matchesFilters, hcid, hcr, le_of_eq rfl, hlt]
    · intro hcr hmem
      rw [(sortDesc_perm _).mem_iff, List.mem_filter] at hmem
      have := hmem.2
      simp [matchesFilters, hcr] at this
  · intro bad hbne hbad
    constructor
    · simp [parse_date_params, hbne, hbad]
    · simp [parse_date_params, hsne, hs, hbne, hbad]

theorem getKey_cons_eq (kv : String × JVal) (rest : List (String × JVal)) (k : String)
    (h : kv.1 = k) : getKey (kv :: rest) k = some kv.2 := by
  unfold getKey
  rw [List.find?_cons_of_pos _ (by simp [h])]
  rfl

theorem getKey_cons_ne (kv : String × JVal) (rest : List (String × JVal)) (k : String)
    (h : kv.1 ≠ k) : getKey (kv :: rest) k = getKey rest k := by
  unfold getKey
  rw [List.find?_cons_of_neg _ (by simp [h])]

theorem getKey_setAssoc_ne (fields : List (String × JVal)) (k₀ k : String) (v : JVal)
    (h : k ≠ k₀) : getKey (setAssoc fields k₀ v) k = getKey fields k := by
  induction fields with
  | nil =>
    unfold setAssoc
    rw [getKey_cons_ne _ _ _ (Ne.symm h)]
  | cons kv rest ih =>
    by_cases hk : kv.1 = k₀
    · rw [show setAssoc (kv :: rest) k₀ v = (k₀, v) :: rest from by simp [setAssoc, hk]]
      rw [getKey_cons_ne _ _ _ (Ne.symm h), getKey_cons_ne _ _ _ (by rw [hk]; exact Ne.symm h : kv.1 ≠ k)]
    · rw [show setAssoc (kv :: rest) k₀ v = kv :: setAssoc rest k₀ v from by simp [setAssoc, hk]]
      by_cases hkk : kv.1 = k
      · rw [getKey_cons_eq _ _ _ hkk, getKey_cons_eq _ _ _ hkk]
      · rw [getKey_cons_ne _ _ _ hkk, getKey_cons_ne _ _ _ hkk, ih]

theorem applySet_id (d : MDoc) (payload : List (String × JVal)) :
    (applySet d payload).id = d.id := by
  induction payload generalizing d with
  | nil => rfl
  | cons kv rest ih => simpa [applySet, List.foldl_cons] using ih _

theorem getKey_applySet_notin (d : MDoc) (payload : List (String × JVal)) (k : String)
    (h : ∀ kv ∈ payload, kv.1 ≠ k) :
    getKey (applySet d payload).fields k = getKey d.fields k := by
  induction payload generalizing d with
  | nil => rfl
  | cons kv rest ih =>
    have h1 : kv.1 ≠ k := h kv (by simp)
    have h2 : ∀ kv₂ ∈ rest, kv₂.1 ≠ k := fun kv₂ hm => h kv₂ (by simp [hm])
    calc getKey (applySet d (kv :: rest)).fields k
        = getKey (applySet { d with fields := setAssoc d.fields kv.1 kv.2 } rest).fields k := rfl
      _ = getKey (setAssoc d.fields kv.1 kv.2) k := ih _ h2
      _ = getKey d.fields k := getKey_setAssoc_ne _ _ _ _ (Ne.symm h1)

theorem updateFirstDoc_forall₂ (R : MDoc → MDoc → Prop) (f : MDoc → MDoc) (cid : String)
    (hrefl : ∀ d, R d d) (hf : ∀ d, R d (f d)) :
    ∀ l : List MDoc, List.Forall₂ R l (updateFirstDoc f cid l) := by
  intro l
  induction l with
  | nil => exact List.Forall₂.nil
  | cons d rest ih =>
    by_cases hd : d.id = cid
    · simp only [updateFirstDoc, if_pos hd]
      exact List.Forall₂.cons (hf d) (List.forall₂_same.mpr (fun x _ => hrefl x))
    · simp only [updateFirstDoc, if_neg hd]
      exact List.Forall₂.cons (hrefl d) ih

/-- C5: only the allow-listed keys {group, allergies, notes, name,
birthday} of an update payload are ever applied — on every stored
document, every key outside the allow-list reads the same after the
update as before, unknown keys being silently dropped without error; if
the payload contains no allowed key the operation returns `false`
without touching (or needing) the store; otherwise it returns `true`
exactly when a record with the given id existed. -/
theorem update_child_details_spec (children : List MDoc) (cid : String)
    (update_data : List (String × JVal)) :
    ((update_data.filter (fun kv => allowed_updates.contains kv.1)).isEmpty = true →
       update_child_details children cid update_data = (false, children))
  ∧ ((update_child_details children cid update_data).1 = true ↔
       (update_data.filter (fun kv => allowed_updates.contains kv.1)).isEmpty = false
       ∧ ∃ oid, parseOid cid = some oid ∧ ∃ d ∈ children, d.id = oid)
  ∧ List.Forall₂ (fun d d₂ => d₂.id = d.id ∧
       ∀ k, allowed_updates.contains k = false → getKey d₂.fields k = getKey d.fields k)
       children (update_child_details children cid update_data).2 := by
  have hsame : List.Forall₂ (fun d d₂ => d₂.id = d.id ∧
      ∀ k, allowed_updates.contains k = false → getKey d₂.fields k = getKey d.fields k)
      children children :=
    List.forall₂_same.mpr (fun x _ => ⟨rfl, fun _ _ => rfl⟩)
  cases hemp : (update_data.filter (fun kv => allowed_updates.contains kv.1)).isEmpty with
  | true =>
    have heq : update_child_details children cid update_data = (false, children) := by
      unfold update_child_details
      rw [if_pos hemp]
    refine ⟨fun _ => heq, ?_, ?_⟩
    · rw [heq]; simp [hemp]
    · rw [heq]; exact hsame
  | false =>
    have hne : ¬ (update_data.filter (fun kv => allowed_updates.contains kv.1)).isEmpty = true := by
      rw [hemp]; exact Bool.false_ne_true
    cases hp : parseOid cid with
    | none =>
      have heq : update_child_details children cid update_data = (false, children) := by
        unfold update_child_details
        rw [if_neg hne, hp]
      refine ⟨?_, ?_, ?_⟩
      · intro hcon; exact absurd hcon Bool.false_ne_true
      · rw [heq]
        simp
      · rw [heq]; exact hsame
    | some oid =>
      have heq : update_child_details children cid update_data =
          (children.any (fun d => d.id = oid),
           updateFirstDoc (fun d => applySet d (update_data.filter (fun kv => allowed_updates.contains kv.1))) oid children) := by
        unfold update_child_details
        rw [if_neg hne, hp]
      refine ⟨?_, ?_, ?_⟩
      · intro hcon; exact absurd hcon Bool.false_ne_true
      · rw [heq]
        simp [hemp, List.any_eq_true]
      · rw [heq]
        refine updateFirstDoc_forall₂
          (fun d d₂ => d₂.id = d.id ∧
            ∀ k, allowed_updates.contains k = false → getKey d₂.fields k = getKey d.fields k)
          _ _ (fun d => ⟨rfl, fun _ _ => rfl⟩)
          (fun d => ⟨applySet_id d _, fun k hk => ?_⟩) children
        refine getKey_applySet_notin d _ k (fun kv hkv => ?_)
        have hall : allowed_updates.contains kv.1 = true := (List.mem_filter.mp hkv).2
        intro hcon
        rw [hcon, hk] at hall
        cases hall

theorem addToSet_idem (l : List String) (x : String) :
    addToSet (addToSet l x) x = addToSet l x := by
  by_cases h : x ∈ l
  · simp [addToSet, h]
  · simp [addToSet, h]

theorem addToSet_nodup (l : List String) (x : String) (h : l.Nodup) :
    (addToSet l x).Nodup := by
  by_cases hc : x ∈ l
  · simpa [addToSet, hc] using h
  · rw [addToSet, if_neg hc, List.nodup_append]
    refine ⟨h, List.nodup_singleton x, ?_⟩
    intro a ha hb
    simp at hb
    subst hb
    exact hc ha

theorem updateFirstChild_cons_pos (f : Child → Child) (cid : String) (c : Child)
    (rest : List Child) (hc : c.id = cid) :
    updateFirstChild f cid (c :: rest) = f c :: rest := by
  show (if c.id = cid then f c :: rest else c :: updateFirstChild f cid rest) = f c :: rest
  rw [if_pos hc]

theorem updateFirstChild_cons_neg (f : Child → Child) (cid : String) (c : Child)
    (rest : List Child) (hc : ¬ c.id = cid) :
    updateFirstChild f cid (c :: rest) = c :: updateFirstChild f cid rest := by
  show (if c.id = cid then f c :: rest else c :: updateFirstChild f cid rest) = _
  rw [if_neg hc]

theorem updateFirstChild_idem (f : Child → Child) (cid : String)
    (hid : ∀ c, (f c).id = c.id) (hff : ∀ c, f (f c) = f c) :
    ∀ l : List Child, updateFirstChild f cid (updateFirstChild f cid l) = updateFirstChild f cid l := by
  intro l
  induction l with
  | nil => rfl
  | cons c rest ih =>
    by_cases hc : c.id = cid
    · rw [updateFirstChild_cons_pos f cid c rest hc,
        updateFirstChild_cons_pos f cid (f c) rest ((hid c).trans hc), hff c]
    · rw [updateFirstChild_cons_neg f cid c rest hc,
        updateFirstChild_cons_neg f cid c _ hc, ih]

theorem updateFirstChild_pres (P : Child → Prop) (f : Child → Child) (cid : String)
    (hf : ∀ c, P c → P (f c)) :
    ∀ l : List Child, (∀ c ∈ l, P c) → ∀ c ∈ updateFirstChild f cid l, P c := by
  intro l
  induction l with
  | nil => intro _ c hc; cases hc
  | cons d rest ih =>
    intro hall c hc
    by_cases hd : d.id = cid
    · rw [updateFirstChild_cons_pos f cid d rest hd] at hc
      rcases List.mem_cons.mp hc with h1 | h2
      · subst h1; exact hf d (hall d (by simp))
      · exact hall c (by simp [h2])
    · rw [updateFirstChild_cons_neg f cid d rest hd] at hc
      rcases List.mem_cons.mp hc with h1 | h2
      · subst h1; exact hall c (by simp)
      · exact ih (fun x hx => hall x (by simp [hx])) c h2

theorem linkSup_id (sid : String) (c : Child) : (linkSup sid c).id = c.id := rfl

theorem linkSup_idem (sid : String) (c : Child) :
    linkSup sid (linkSup sid c) = linkSup sid c := by
  unfold linkSup
  simp [addToSet_idem]

/-- C6: linking a supervisor to a child is idempotent — a second
identical call leaves the database exactly as the first left it; the
no-duplicates invariant on every `supervisor_ids` set is preserved; and
the returned boolean is `true` exactly when both ids resolve and a child
with that id exists, regardless of whether the supervisor was already
present. -/
theorem link_supervisor_to_child_spec (db : DB) (cs ss : String)
    (hnd : ∀ c ∈ db.children, c.supervisor_ids.Nodup) :
    (link_supervisor_to_child (link_supervisor_to_child db cs ss).2 cs ss).2
      = (link_supervisor_to_child db cs ss).2
  ∧ (∀ c ∈ (link_supervisor_to_child db cs ss).2.children, c.supervisor_ids.Nodup)
  ∧ ((link_supervisor_to_child db cs ss).1 = true ↔
      ∃ cid sid, parseOid cs = some cid ∧ parseOid ss = some sid
        ∧ ∃ c ∈ db.children, c.id = cid) := by
  cases hc : parseOid cs with
  | none =>
    refine ⟨?_, ?_, ?_⟩
    · simp [link_supervisor_to_child, hc]
    · simpa [link_supervisor_to_child, hc] using hnd
    · simp [link_supervisor_to_child, hc]
  | some cid =>
    cases hs : parseOid ss with
    | none =>
      refine ⟨?_, ?_, ?_⟩
      · simp [link_supervisor_to_child, hc, hs]
      · simpa [link_supervisor_to_child, hc, hs] using hnd
      · simp [link_supervisor_to_child, hc, hs]
    | some sid =>
      have heq : ∀ d : DB, link_supervisor_to_child d cs ss =
          (d.children.any (fun c => c.id = cid),
           { d with children := updateFirstChild (linkSup sid) cid d.children }) := by
        intro d
        unfold link_supervisor_to_child
        rw [hc, hs]
      refine ⟨?_, ?_, ?_⟩
      · rw [heq db, heq { db with children := updateFirstChild (linkSup sid) cid db.children }]
        simp only
        rw [updateFirstChild_idem (linkSup sid) cid (linkSup_id sid) (linkSup_idem sid) db.children]
      · rw [heq db]
        exact updateFirstChild_pres (fun c => c.supervisor_ids.Nodup) _ cid
          (fun c hcn => addToSet_nodup _ _ hcn) db.children hnd
      · rw [heq db]
        simp [List.any_eq_true]

/-- C8: activity creation fails with a ValidationError whenever a
required field (`child_id`, `type`, `details`, `logged_by`) is absent or
falsy, whenever `details` is present but not a structured record, and
whenever the type is `drawing` and `details` lacks a truthy `image_url`
(a drawing with empty `details` falls under the required-field failure);
a well-formed request — all four fields present and truthy, both ids
resolvable, `details` a dictionary, and the drawing check satisfied —
succeeds, returning the fresh id and the input collection extended by
exactly the prepared document (in particular the drawing request with
`details {image_url: "x"}` succeeds, see the witness); and every
successful outcome extends the collection by exactly one document, so no
record is stored on any validation failure (the error is raised before
the insert). -/
theorem add_activity_record_spec (docs : List (List (String × JVal)))
    (activity_data : List (String × JVal)) (now : JVal) (new_id : String) :
    (∀ f, f ∈ (["child_id", "type", "details", "logged_by"] : List String) →
       truthyOpt (getKey activity_data f) = false →
       ∃ msg, add_activity_record docs activity_data now new_id = .error msg)
  ∧ (∀ v, getKey activity_data "details" = some v → (∀ kvs, v ≠ .obj kvs) →
       ∃ msg, add_activity_record docs activity_data now new_id = .error msg)
  ∧ (∀ kvs, getKey activity_data "type" = some (.str "drawing") →
       getKey activity_data "details" = some (.obj kvs) →
       truthyOpt (getKey kvs "image_url") = false →
       ∃ msg, add_activity_record docs activity_data now new_id = .error msg)
  ∧ (∀ res, add_activity_record docs activity_data now new_id = .ok res →
       res.1 = new_id ∧ ∃ d, res.2 = docs ++ [d])
  ∧ (∀ kvs cid lid, (getKey activity_data "child_id").bind jvalToOid = some cid →
       (getKey activity_data "logged_by").bind jvalToOid = some lid →
       getKey activity_data "details" = some (.obj kvs) →
       (isDrawingType activity_data && !truthyOpt (getKey kvs "image_url")) = false →
       ((["child_id", "type", "details", "logged_by"] : List String).filter
           (fun f => !truthyOpt (getKey activity_data f))).isEmpty = true →
       add_activity_record docs activity_data now new_id =
         .ok (new_id, docs ++ [preparedActivityDoc activity_data now cid lid])) := by
  cases hm : ((["child_id", "type", "details", "logged_by"] : List String).filter
      (fun f => !truthyOpt (getKey activity_data f))).isEmpty with
  | false =>
    have herr : add_activity_record docs activity_data now new_id =
        .error "Missing required fields for activity" := by
      unfold add_activity_record
      rw [if_pos (by rw [hm]; rfl)]
    refine ⟨fun _ _ _ => ⟨_, herr⟩, fun _ _ _ => ⟨_, herr⟩, fun _ _ _ _ => ⟨_, herr⟩, ?_, ?_⟩
    · intro res hres
      rw [herr] at hres
      cases hres
    · intro kvs cid lid h1 h2 h3 h4 h5
      simp [hm] at h5
  | true =>
    have hcond : ¬ ((!((["child_id", "type", "details", "logged_by"] : List String).filter
        (fun f => !truthyOpt (getKey activity_data f))).isEmpty) = true) := by
      rw [hm]; simp
    have hall : ∀ f ∈ (["child_id", "type", "details", "logged_by"] : List String),
        truthyOpt (getKey activity_data f) = true := by
      intro f hf
      by_contra hne
      have hfm : f ∈ (["child_id", "type", "details", "logged_by"] : List String).filter
          (fun f => !truthyOpt (getKey activity_data f)) :=
        List.mem_filter.mpr ⟨hf, by
          cases hxx : truthyOpt (getKey activity_data f) with
          | false => rfl
          | true => exact absurd hxx hne⟩
      rw [List.isEmpty_iff.mp hm] at hfm
      cases hfm
    have hc1 : ∀ f, f ∈ (["child_id", "type", "details", "logged_by"] : List String) →
        truthyOpt (getKey activity_data f) = false →
        ∃ msg, add_activity_record docs activity_data now new_id = .error msg := by
      intro f hf hfal
      rw [hall f hf] at hfal
      cases hfal
    refine ⟨hc1, ?_, ?_, ?_, ?_⟩
    · intro v hv hobj
      cases hcb : (getKey activity_data "child_id").bind jvalToOid with
      | none =>
        exact ⟨_, by unfold add_activity_record; rw [if_neg hcond, hcb]⟩
      | some cid =>
        cases hlb : (getKey activity_data "logged_by").bind jvalToOid with
        | none =>
          exact ⟨_, by unfold add_activity_record; rw [if_neg hcond, hcb, hlb]⟩
        | some lid =>
          cases v with
          | obj kvs => exact absurd rfl (hobj kvs)
          | oid s => exact ⟨_, by unfold add_activity_record; rw [if_neg hcond, hcb, hlb, hv]⟩
          | str s => exact ⟨_, by unfold add_activity_record; rw [if_neg hcond, hcb, hlb, hv]⟩
          | num n => exact ⟨_, by unfold add_activity_record; rw [if_neg hcond, hcb, hlb, hv]⟩
          | bool b => exact ⟨_, by unfold add_activity_record; rw [if_neg hcond, hcb, hlb, hv]⟩
          | null => exact ⟨_, by unfold add_activity_record; rw [if_neg hcond, hcb, hlb, hv]⟩
          | arr l => exact ⟨_, by unfold add_activity_record; rw [if_neg hcond, hcb, hlb, hv]⟩
    · intro kvs hty hv hiu
      cases hcb : (getKey activity_data "child_id").bind jvalToOid with
      | none =>
        exact ⟨_, by unfold add_activity_record; rw [if_neg hcond, hcb]⟩
      | some cid =>
        cases hlb : (getKey activity_data "logged_by").bind jvalToOid with
        | none =>
          exact ⟨_, by unfold add_activity_record; rw [if_neg hcond, hcb, hlb]⟩
        | some lid =>
          have hdr : isDrawingType activity_data = true := by
            unfold isDrawingType
            rw [hty]
            simp
          have heq : add_activity_record docs activity_data now new_id =
              drawingStage docs activity_data now new_id cid lid kvs := by
            unfold add_activity_record
            rw [if_neg hcond, hcb, hlb, hv]
          refine ⟨"Missing image_url in details for drawing activity", ?_⟩
          rw [heq]
          unfold drawingStage
          rw [if_pos (by rw [hdr, hiu]; rfl)]
    · intro res hres
      cases hcb : (getKey activity_data "child_id").bind jvalToOid with
      | none =>
        have heq : add_activity_record docs activity_data now new_id =
            .error "Invalid child_id for activity" := by
          unfold add_activity_record
          rw [if_neg hcond, hcb]
        rw [heq] at hres
        cases hres
      | some cid =>
        cases hlb : (getKey activity_data "logged_by").bind jvalToOid with
        | none =>
          have heq : add_activity_record docs activity_data now new_id =
              .error "Invalid logged_by for activity" := by
            unfold add_activity_record
            rw [if_neg hcond, hcb, hlb]
          rw [heq] at hres
          cases hres
        | some lid =>
          have hnotobj : ∀ v, getKey activity_data "details" = some v → (∀ kvs, v ≠ JVal.obj kvs) →
              add_activity_record docs activity_data now new_id =
                .error "Activity details must be an object" := by
            intro v hv hno
            unfold add_activity_record
            rw [if_neg hcond, hcb, hlb, hv]
            cases v with
            | obj kvs => exact absurd rfl (hno kvs)
            | oid s => rfl
            | str s => rfl
            | num n => rfl
            | bool b => rfl
            | null => rfl
            | arr l => rfl
          cases hdet : getKey activity_data "details" with
          | none =>
            have heq : add_activity_record docs activity_data now new_id =
                .error "Activity details must be an object" := by
              unfold add_activity_record
              rw [if_neg hcond, hcb, hlb, hdet]
            rw [heq] at hres
            cases hres
          | some v =>
            cases v with
            | obj kvs =>
              have heq : add_activity_record docs activity_data now new_id =
                  drawingStage docs activity_data now new_id cid lid kvs := by
                unfold add_activity_record
                rw [if_neg hcond, hcb, hlb, hdet]
              rw [heq] at hres
              unfold drawingStage at hres
              cases hdr : (isDrawingType activity_data && !truthyOpt (getKey kvs "image_url")) with
              | true =>
                rw [if_pos hdr] at hres
                cases hres
              | false =>
                rw [if_neg (by rw [hdr]; exact Bool.false_ne_true)] at hres
                cases hres
                exact ⟨rfl, _, rfl⟩
            | oid s => rw [hnotobj _ hdet (by intro kvs h; cases h)] at hres; cases hres
            | str s => rw [hnotobj _ hdet (by intro kvs h; cases h)] at hres; cases hres
            | num n => rw [hnotobj _ hdet (by intro kvs h; cases h)] at hres; cases hres
            | bool b => rw [hnotobj _ hdet (by intro kvs h; cases h)] at hres; cases hres
            | null => rw [hnotobj _ hdet (by intro kvs h; cases h)] at hres; cases hres
            | arr l => rw [hnotobj _ hdet (by intro kvs h; cases h)] at hres; cases hres
    · intro kvs cid lid hcb hlb hdet hdr _
      have heq : add_activity_record docs activity_data now new_id =
          drawingStage docs activity_data now new_id cid lid kvs := by
        unfold add_activity_record
        rw [if_neg hcond, hcb, hlb, hdet]
      rw [heq]
      unfold drawingStage
      rw [if_neg (by rw [hdr]; exact Bool.false_ne_true)]

theorem getKey_mapKey_same (doc : List (String × JVal)) (k : String) (f : JVal → JVal) :
    getKey (mapKey doc k f) k = (getKey doc k).map f := by
  induction doc with
  | nil => rfl
  | cons kv rest ih =>
    by_cases h : kv.1 = k
    · rw [show mapKey (kv :: rest) k f = (kv.1, f kv.2) :: mapKey rest k f from by
        simp [mapKey, h]]
      rw [getKey_cons_eq (kv.1, f kv.2) _ _ h, getKey_cons_eq kv _ _ h]
      rfl
    · rw [show mapKey (kv :: rest) k f = kv :: mapKey rest k f from by
        simp [mapKey, h]]
      rw [getKey_cons_ne _ _ _ h, getKey_cons_ne _ _ _ h, ih]

theorem getKey_mapKey_ne (doc : List (String × JVal)) (k k' : String) (f : JVal → JVal)
    (hne : k' ≠ k) : getKey (mapKey doc k f) k' = getKey doc k' := by
  induction doc with
  | nil => rfl
  | cons kv rest ih =>
    by_cases h : kv.1 = k
    · rw [show mapKey (kv :: rest) k f = (kv.1, f kv.2) :: mapKey rest k f from by
        simp [mapKey, h]]
      have hk : kv.1 ≠ k' := by rw [h]; exact Ne.symm hne
      rw [getKey_cons_ne (kv.1, f kv.2) _ _ hk, getKey_cons_ne kv _ _ hk, ih]
    · rw [show mapKey (kv :: rest) k f = kv :: mapKey rest k f from by
        simp [mapKey, h]]
      by_cases hk : kv.1 = k'
      · rw [getKey_cons_eq _ _ _ hk, getKey_cons_eq _ _ _ hk]
      · rw [getKey_cons_ne _ _ _ hk, getKey_cons_ne _ _ _ hk, ih]

theorem serialize_doc_eq (doc : List (String × JVal)) :
    serialize_doc doc =
      mapKey (mapKey (mapKey (mapKey (mapKey doc "_id" oidToStr)
        "parent_ids" filterIdsVal) "supervisor_ids" filterIdsVal)
        "child_id" oidToStr) "logged_by" oidToStr := by
  cases doc with
  | nil => rfl
  | cons kv rest => rfl

theorem serializeIdList_length_le (l : List JVal) :
    (serializeIdList l).length ≤ l.length := by
  induction l with
  | nil => exact Nat.le_refl 0
  | cons a rest ih =>
    cases a with
    | oid s => simpa [serializeIdList] using ih
    | str s => exact le_trans ih (by simp)
    | num n => exact le_trans ih (by simp)
    | bool b => exact le_trans ih (by simp)
    | null => exact le_trans ih (by simp)
    | arr l => exact le_trans ih (by simp)
    | obj kvs => exact le_trans ih (by simp)

theorem serializeIdList_length_lt (l : List JVal)
    (h : ∃ x ∈ l, ∀ s, x ≠ JVal.oid s) :
    (serializeIdList l).length < l.length := by
  induction l with
  | nil => rcases h with ⟨x, hx, _⟩; cases hx
  | cons a rest ih =>
    rcases h with ⟨x, hx, hnx⟩
    rcases List.mem_cons.mp hx with h1 | hmem
    · subst h1
      cases x with
      | oid s => exact absurd rfl (hnx s)
      | str s => exact Nat.lt_succ_of_le (serializeIdList_length_le rest)
      | num n => exact Nat.lt_succ_of_le (serializeIdList_length_le rest)
      | bool b => exact Nat.lt_succ_of_le (serializeIdList_length_le rest)
      | null => exact Nat.lt_succ_of_le (serializeIdList_length_le rest)
      | arr l => exact Nat.lt_succ_of_le (serializeIdList_length_le rest)
      | obj kvs => exact Nat.lt_succ_of_le (serializeIdList_length_le rest)
    · have hr := ih ⟨x, hmem, hnx⟩
      cases a with
      | oid s => simpa [serializeIdList] using hr
      | str s => exact Nat.lt_succ_of_le (le_of_lt hr)
      | num n => exact Nat.lt_succ_of_le (le_of_lt hr)
      | bool b => exact Nat.lt_succ_of_le (le_of_lt hr)
      | null => exact Nat.lt_succ_of_le (le_of_lt hr)
      | arr l => exact Nat.lt_succ_of_le (le_of_lt hr)
      | obj kvs => exact Nat.lt_succ_of_le (le_of_lt hr)

/-- C10: serialization across the store boundary is a per-key value map —
every key outside {_id, parent_ids, supervisor_ids, child_id, logged_by}
is returned untouched; the three singular reference keys are converted
from ObjectId to string exactly when they hold an ObjectId and passed
through otherwise; the two id-list keys, when they hold a list, are
rebuilt from their ObjectId entries only (converted to strings), so a
stored list containing a non-reference entry comes back strictly shorter
than stored rather than erroring or passing the entry through; the
function is total, so no input makes it fail. -/
theorem serialize_doc_spec (doc : List (String × JVal)) :
    (∀ k, k ∉ (["_id", "parent_ids", "supervisor_ids", "child_id", "logged_by"] : List String) →
       getKey (serialize_doc doc) k = getKey doc k)
  ∧ getKey (serialize_doc doc) "_id" = (getKey doc "_id").map oidToStr
  ∧ getKey (serialize_doc doc) "child_id" = (getKey doc "child_id").map oidToStr
  ∧ getKey (serialize_doc doc) "logged_by" = (getKey doc "logged_by").map oidToStr
  ∧ getKey (serialize_doc doc) "parent_ids" = (getKey doc "parent_ids").map filterIdsVal
  ∧ getKey (serialize_doc doc) "supervisor_ids" = (getKey doc "supervisor_ids").map filterIdsVal
  ∧ (∀ s, oidToStr (JVal.oid s) = JVal.str s)
  ∧ (∀ v, (∀ s, v ≠ JVal.oid s) → oidToStr v = v)
  ∧ (∀ l, filterIdsVal (JVal.arr l) = JVal.arr (serializeIdList l))
  ∧ (∀ l, (serializeIdList l).length ≤ l.length)
  ∧ (∀ l, (∃ x ∈ l, ∀ s, x ≠ JVal.oid s) → (serializeIdList l).length < l.length) := by
  rw [serialize_doc_eq doc]
  refine ⟨?_, ?_, ?_, ?_, ?_, ?_, fun s => rfl, ?_, fun l => rfl,
    serializeIdList_length_le, serializeIdList_length_lt⟩
  · intro k hk
    simp only [List.mem_cons, List.mem_singleton, not_or] at hk
    obtain ⟨h1, h2, h3, h4, h5, -⟩ := hk
    rw [getKey_mapKey_ne _ "logged_by" k _ h5, getKey_mapKey_ne _ "child_id" k _ h4,
      getKey_mapKey_ne _ "supervisor_ids" k _ h3, getKey_mapKey_ne _ "parent_ids" k _ h2,
      getKey_mapKey_ne _ "_id" k _ h1]
  · rw [getKey_mapKey_ne _ "logged_by" "_id" _ (by decide),
      getKey_mapKey_ne _ "child_id" "_id" _ (by decide),
      getKey_mapKey_ne _ "supervisor_ids" "_id" _ (by decide),
      getKey_mapKey_ne _ "parent_ids" "_id" _ (by decide),
      getKey_mapKey_same]
  · rw [getKey_mapKey_ne _ "logged_by" "child_id" _ (by decide),
      getKey_mapKey_same,
      getKey_mapKey_ne _ "supervisor_ids" "child_id" _ (by decide),
      getKey_mapKey_ne _ "parent_ids" "child_id" _ (by decide),
      getKey_mapKey_ne _ "_id" "child_id" _ (by decide)]
  · rw [getKey_mapKey_same,
      getKey_mapKey_ne _ "child_id" "logged_by" _ (by decide),
      getKey_mapKey_ne _ "supervisor_ids" "logged_by" _ (by decide),
      getKey_mapKey_ne _ "parent_ids" "logged_by" _ (by decide),
      getKey_mapKey_ne _ "_id" "logged_by" _ (by decide)]
  · rw [getKey_mapKey_ne _ "logged_by" "parent_ids" _ (by decide),
      getKey_mapKey_ne _ "child_id" "parent_ids" _ (by decide),
      getKey_mapKey_ne _ "supervisor_ids" "parent_ids" _ (by decide),
      getKey_mapKey_same,
      getKey_mapKey_ne _ "_id" "parent_ids" _ (by decide)]
  · rw [getKey_mapKey_ne _ "logged_by" "supervisor_ids" _ (by decide),
      getKey_mapKey_ne _ "child_id" "supervisor_ids" _ (by decide),
      getKey_mapKey_same,
      getKey_mapKey_ne _ "parent_ids" "supervisor_ids" _ (by decide),
      getKey_mapKey_ne _ "_id" "supervisor_ids" _ (by decide)]
  · intro v hv
    cases v with
    | oid s => exact absurd rfl (hv s)
    | str s => rfl
    | num n => rfl
    | bool b => rfl
    | null => rfl
    | arr l => rfl
    | obj kvs => rfl

/-- Concrete instance of the delete-activity theorem: a valid teacher
identity that does not supervise the sample child is denied with 403
and the database is unchanged. -/
theorem handle_delete_activity_spec_witness :
    handle_delete_activity sampleDB strangerOid "teacher" actOid = (403, sampleDB) := by
  refine (handle_delete_activity_spec sampleDB strangerOid "teacher" actOid).2.1
    sampleActivity rfl (by decide) (by decide) ?_
  intro hcon
  have hb := (is_supervisor_of_iff sampleDB strangerOid sampleActivity.child_id).mpr hcon
  have hf : is_supervisor_of sampleDB strangerOid sampleActivity.child_id = false := by decide
  rw [hf] at hb
  cases hb

/-- Concrete instance of the update theorem: a payload with no allowed
key returns false and leaves the collection untouched. -/
theorem update_child_details_spec_witness :
    update_child_details [] childOid [("hack", JVal.num 1)] = (false, []) :=
  (update_child_details_spec [] childOid [("hack", JVal.num 1)]).1 (by decide)

/-- Concrete instance of the supervisor-link theorem: linking the sample
teacher to the sample child twice gives the same database as linking
once. -/
theorem link_supervisor_to_child_spec_witness :
    (link_supervisor_to_child (link_supervisor_to_child sampleDB childOid teacherOid).2 childOid teacherOid).2
      = (link_supervisor_to_child sampleDB childOid teacherOid).2 :=
  (link_supervisor_to_child_spec sampleDB childOid teacherOid (by decide)).1

/-- Concrete instance of the date-filter theorem: the query parameters
2023-10-01 / 2023-10-27 produce the inclusive lower bound at midnight of
the first day and the exclusive upper bound at midnight of 2023-10-28. -/
theorem date_filter_spec_witness :
    parse_date_params (some "2023-10-01") (some "2023-10-27")
      = some (some ((dayNumber 2023 10 1 : Int) * 86400),
              some ((dayNumber 2023 10 27 : Int) * 86400 + 86400)) :=
  (date_filter_spec sampleDB "2023-10-01" "2023-10-27" childOid childOid
    ((dayNumber 2023 10 1 : Int) * 86400) ((dayNumber 2023 10 27 : Int) * 86400) sampleActivity
    (by decide) (by decide) (by decide)).1

/-- Concrete instances of the activity-creation theorem, both halves of
the drawing scenario: the request with empty details is rejected (the
details value is falsy), and the identical request with details
`{image_url: "x"}` succeeds, storing exactly the prepared document. -/
theorem add_activity_record_spec_witness :
    (∃ msg, add_activity_record []
      [("child_id", JVal.str childOid), ("type", JVal.str "drawing"),
       ("details", JVal.obj []), ("logged_by", JVal.str teacherOid)]
      (JVal.num 5) "a1" = .error msg)
    ∧ add_activity_record []
        [("child_id", JVal.str childOid), ("type", JVal.str "drawing"),
         ("details", JVal.obj [("image_url", JVal.str "x")]), ("logged_by", JVal.str teacherOid)]
        (JVal.num 5) "a1"
      = .ok ("a1", [] ++ [preparedActivityDoc
          [("child_id", JVal.str childOid), ("type", JVal.str "drawing"),
           ("details", JVal.obj [("image_url", JVal.str "x")]), ("logged_by", JVal.str teacherOid)]
          (JVal.num 5) childOid teacherOid]) :=
  ⟨(add_activity_record_spec []
      [("child_id", JVal.str childOid), ("type", JVal.str "drawing"),
       ("details", JVal.obj []), ("logged_by", JVal.str teacherOid)]
      (JVal.num 5) "a1").1 "details" (by decide) (by rfl),
   (add_activity_record_spec []
      [("child_id", JVal.str childOid), ("type", JVal.str "drawing"),
       ("details", JVal.obj [("image_url", JVal.str "x")]), ("logged_by", JVal.str teacherOid)]
      (JVal.num 5) "a1").2.2.2.2
     [("image_url", JVal.str "x")] childOid teacherOid
     (by decide) (by decide) (by rfl) (by decide) (by decide)⟩

/-- Concrete instance of the activity-listing theorem at the sample
database. -/
theorem get_activities_for_child_spec_witness :
    ∃ l, get_activities_for_child sampleDB childOid none none none = .ok l
      ∧ l.Perm (sampleDB.activities.filter (matchesFilters childOid none none none))
      ∧ ((sampleDB.activities.filter (matchesFilters childOid none none none)).Pairwise
            (fun x y => x.created_at ≠ y.created_at) →
          l.Pairwise (fun x y => y.created_at < x.created_at))
      ∧ (sampleDB.activities.filter (matchesFilters childOid none none none) = [] → l = []) :=
  get_activities_for_child_spec sampleDB childOid childOid none none none (by decide)

/-- Concrete instance of the serialization theorem: a key outside the
five reference keys is returned unchanged. -/
theorem serialize_doc_spec_witness :
    getKey (serialize_doc [("x", JVal.num 3)]) "x" = getKey [("x", JVal.num 3)] "x" :=
  (serialize_doc_spec [("x", JVal.num 3)]).1 "x" (by decide)

end DbInteract
